import Mathlib

/-! EuPathDB login form personaliser (`eupath-login-form.js`).

A shallow embedding of the script `assets/js/eupath-login-form.js` and of the
ECMAScript built-ins it calls, followed by theorems about the derived base URL,
cancel URL, project identifier and the values written to the page.

ECMAScript strings are sequences of UTF-16 code units; they are modelled as
lists of natural numbers, one per code unit.  The functions `getUrlParams` and
`parseURL` the script calls live elsewhere in the repository; their results are
inputs of the model.
-/

namespace EuPathLogin

/-! ## ECMAScript strings -/

/-- An ECMAScript string: the list of its UTF-16 code units. -/
abbrev JSString := List Nat

/-- UTF-16 encoding of one code point: one code unit below 0x10000, otherwise a
high surrogate followed by a low surrogate. -/
def utf16 (v : Nat) : JSString :=
  if v < 0x10000 then [v]
  else [(v - 0x10000) / 0x400 % 0x400 + 0xD800, (v - 0x10000) % 0x400 + 0xDC00]

/-- The ECMAScript string denoted by a source-text literal. -/
def lit (s : String) : JSString :=
  s.toList.flatMap (fun c => utf16 c.toNat)

/-- Clamp an integer position into `[0, len]` and return it as a natural number
(`min(max(pos, 0), len)` of `String.prototype.substring`). -/
def clampPos (pos : Int) (len : Nat) : Nat :=
  if pos < 0 then 0 else min pos.toNat len

/-- `String.prototype.substring(start, end)`: both positions are clamped into
`[0, length]`, swapped when `start > end`, and the code units from the smaller
(inclusive) to the larger (exclusive) are returned.  `end_ = none` is the call
with the second argument omitted, where the end is the length. -/
def substring (s : JSString) (start : Int) (end_ : Option Int) : JSString :=
  let len := s.length
  let intStart := clampPos start len
  let intEnd := match end_ with
    | none => len
    | some e => clampPos e len
  let fromPos := min intStart intEnd
  let toPos := max intStart intEnd
  (s.drop fromPos).take (toPos - fromPos)

/-- `String.prototype.indexOf(searchString)` from position 0: the smallest index
at which `searchString` occurs in `s`, or `-1` when it does not occur. -/
def indexOf : JSString → JSString → Int
  | [], searchString => if searchString = [] then 0 else -1
  | c :: rest, searchString =>
    if searchString.isPrefixOf (c :: rest) then 0
    else
      let k := indexOf rest searchString
      if k = -1 then -1 else k + 1

/-- Scan of `String.prototype.split` for a non-empty separator: `skip` counts the
code units of an occurrence of the separator that are still to be passed over;
the head of the result is the piece being built. -/
def splitScan (separator : JSString) : JSString → Nat → List JSString
  | [], _ => [[]]
  | _ :: rest, skip + 1 => splitScan separator rest skip
  | c :: rest, 0 =>
    if separator.isPrefixOf (c :: rest) then
      [] :: splitScan separator rest (separator.length - 1)
    else
      match splitScan separator rest 0 with
      | [] => [[c]]
      | piece :: pieces => (c :: piece) :: pieces

/-- `String.prototype.split(separator)` with a string separator and no limit:
the pieces between consecutive occurrences of the separator, found left to
right.  With the empty separator the string is cut into its code units. -/
def split (s separator : JSString) : List JSString :=
  if separator = [] then s.map (fun c => [c])
  else splitScan separator s 0

/-! ## The built-in `decodeURIComponent` -/

/-- The exceptions the modelled built-ins can throw. -/
inductive JSError where
  | URIError
  deriving DecidableEq, Repr

deriving instance DecidableEq for Except

/-- Value of a code unit read as a hexadecimal digit. -/
def hexDigit (u : Nat) : Option Nat :=
  if 0x30 ≤ u ∧ u ≤ 0x39 then some (u - 0x30)
  else if 0x41 ≤ u ∧ u ≤ 0x46 then some (u - 0x41 + 10)
  else if 0x61 ≤ u ∧ u ≤ 0x66 then some (u - 0x61 + 10)
  else none

/-- The octet written by the three code units `p h l` when they are `%` followed
by two hexadecimal digits. -/
def escapeOctet (p h l : Nat) : Option Nat :=
  if p = 0x25 then
    match hexDigit h, hexDigit l with
    | some a, some b => some (16 * a + b)
    | _, _ => none
  else none

/-- The low six bits of an escaped UTF-8 continuation octet (`10xxxxxx`). -/
def continuationBits (p h l : Nat) : Option Nat :=
  match escapeOctet p h l with
  | some b => if b / 0x40 = 2 then some (b % 0x40) else none
  | none => none

/-- The result of reading one UTF-8 sequence: the UTF-16 form of code point `v`
together with the number `consumed` of code units read after the leading `%`,
when `v` lies in `[lo, hi]` and is not a surrogate; otherwise the octets were
not the UTF-8 encoding of a code point and the decoding throws. -/
def codePoint (lo hi v consumed : Nat) : Except JSError (JSString × Nat) :=
  if lo ≤ v ∧ v ≤ hi ∧ ¬ (0xD800 ≤ v ∧ v ≤ 0xDFFF) then .ok (utf16 v, consumed)
  else .error .URIError

/-- The escape sequence that starts at a `%` followed by the code units `rest`:
the first escape gives the octet `b`; an octet below 0x80 stands for itself,
`110xxxxx`, `1110xxxx` and `11110xxx` open a UTF-8 sequence of 2, 3 and 4
octets whose further octets must be escaped continuation octets, and any other
leading octet, a missing or malformed escape, or an invalid sequence throws
`URIError`.  Returns the decoded code units and how many units of `rest` were
read. -/
def escapeSequence (rest : JSString) : Except JSError (JSString × Nat) :=
  match rest with
  | h :: l :: r0 =>
    match escapeOctet 0x25 h l with
    | none => .error .URIError
    | some b =>
      if b < 0x80 then .ok ([b], 2)
      else if b < 0xC0 then .error .URIError
      else if b < 0xE0 then
        match r0 with
        | p1 :: h1 :: l1 :: _ =>
          match continuationBits p1 h1 l1 with
          | some c1 => codePoint 0x80 0x7FF (b % 0x20 * 0x40 + c1) 5
          | none => .error .URIError
        | _ => .error .URIError
      else if b < 0xF0 then
        match r0 with
        | p1 :: h1 :: l1 :: p2 :: h2 :: l2 :: _ =>
          match continuationBits p1 h1 l1, continuationBits p2 h2 l2 with
          | some c1, some c2 =>
            codePoint 0x800 0xFFFF (b % 0x10 * 0x1000 + c1 * 0x40 + c2) 8
          | _, _ => .error .URIError
        | _ => .error .URIError
      else if b < 0xF8 then
        match r0 with
        | p1 :: h1 :: l1 :: p2 :: h2 :: l2 :: p3 :: h3 :: l3 :: _ =>
          match continuationBits p1 h1 l1, continuationBits p2 h2 l2,
              continuationBits p3 h3 l3 with
          | some c1, some c2, some c3 =>
            codePoint 0x10000 0x10FFFF (b % 0x8 * 0x40000 + c1 * 0x1000 + c2 * 0x40 + c3) 11
          | _, _, _ => .error .URIError
        | _ => .error .URIError
      else .error .URIError
  | _ => .error .URIError

/-- The loop of the abstract operation `Decode(string, reservedSet)` of
ECMAScript with the empty reserved set.  `skip` counts the code units of an
escape sequence already decoded that are still to be passed over.  A code unit
other than `%` is copied; at a `%` the escape sequence is decoded and its code
units are passed over. -/
def decodeScan : JSString → Nat → Except JSError JSString
  | [], _ => .ok []
  | _ :: rest, skip + 1 => decodeScan rest skip
  | c :: rest, 0 =>
    if c ≠ 0x25 then (decodeScan rest 0).map (c :: ·)
    else
      match escapeSequence rest with
      | .error e => .error e
      | .ok (units, consumed) => (decodeScan rest consumed).map (units ++ ·)

/-- The abstract operation `Decode` on a whole string. -/
def decode (string : JSString) : Except JSError JSString :=
  decodeScan string 0

/-- The global function `decodeURIComponent(encodedURIComponent)` applied to a
string. -/
def decodeURIComponent (encodedURIComponent : JSString) : Except JSError JSString :=
  decode encodedURIComponent

/-! ## The script: `getWebappName` -/

/-- Embedding of `getWebappName(pathname)` (lines 42-49 of the script). -/
def getWebappName (pathname : JSString) : JSString :=
  let webappName := substring pathname 1 none
  let nextSlashIndex := indexOf webappName (lit "/")
  if nextSlashIndex ≠ -1 then
    substring webappName 0 (some nextSlashIndex)
  else
    webappName

/-! ## Values and the environment of the script -/

/-- The primitive values the script handles: `undefined`, `null` and strings. -/
inductive JSPrim where
  | undefined
  | null
  | str (s : JSString)
  deriving DecidableEq

/-- A value read from an object: a primitive, or a built-in object or function
of the host, known by name only. -/
inductive JSValue where
  | prim (p : JSPrim)
  | builtin (name : String)
  deriving DecidableEq

/-- `ToString` on primitives. -/
def JSPrim.toJSString : JSPrim → JSString
  | .undefined => lit "undefined"
  | .null => lit "null"
  | .str s => s

/-- The comparisons `x == null` and `x == undefined`: true exactly for
`undefined` and `null`. -/
def looseEqNullish : JSPrim → Bool
  | .undefined => true
  | .null => true
  | .str _ => false

/-- The comparison `x == s` for a string `s`: true exactly when `x` is that
string. -/
def looseEqString : JSPrim → JSString → Bool
  | .str t, s => decide (t = s)
  | _, _ => false

/-- Element read `xs[i]` on an array of strings: `undefined` outside the
indices `0 .. length - 1`. -/
def arrayGet (xs : List JSString) (i : Int) : JSPrim :=
  if i < 0 then .undefined
  else
    match xs[i.toNat]? with
    | some s => .str s
    | none => .undefined

/-- Property read `obj[key]` on an object literal with string-valued own
properties `own`: an own property wins, otherwise the property is looked up on
`Object.prototype`, and `undefined` results when neither has it. -/
def getProperty (objectPrototype : JSString → Option JSValue)
    (own : List (JSString × JSString)) (key : JSString) : JSValue :=
  match own.lookup key with
  | some v => .prim (.str v)
  | none =>
    match objectPrototype key with
    | some v => v
    | none => .prim .undefined

/-- The fields of the object returned by `parseURL` that the script reads.
`searchRedirectUrl` is `url.searchObject.redirectUrl`. -/
structure ParsedURL where
  protocol : JSString
  host : JSString
  pathname : JSString
  searchRedirectUrl : JSPrim

/-- What the script takes from its surroundings.  `getUrlParams` and `parseURL`
are defined outside this file of the repository: `redirectUri` and `status` are
the values of `getUrlParams()["redirectUri"]` and `getUrlParams()["status"]`,
and `parseURL` is the function of that name.  `objectPrototype` gives the
properties of the host's `Object.prototype` by name. -/
structure Env where
  redirectUri : JSPrim
  status : JSPrim
  parseURL : JSPrim → ParsedURL
  objectPrototype : JSString → Option JSValue

/-- The properties of `Object.prototype` in a browser: those of the ECMAScript
standard and the legacy ones of its Annex B (`__proto__`, whose value on an
object literal is `Object.prototype` itself, and the `__define...__` and
`__lookup...__` functions). -/
def standardObjectPrototype (key : JSString) : Option JSValue :=
  if key = lit "constructor" then some (.builtin "Object")
  else if key = lit "toString" then some (.builtin "Object.prototype.toString")
  else if key = lit "toLocaleString" then some (.builtin "Object.prototype.toLocaleString")
  else if key = lit "valueOf" then some (.builtin "Object.prototype.valueOf")
  else if key = lit "hasOwnProperty" then some (.builtin "Object.prototype.hasOwnProperty")
  else if key = lit "isPrototypeOf" then some (.builtin "Object.prototype.isPrototypeOf")
  else if key = lit "propertyIsEnumerable" then
    some (.builtin "Object.prototype.propertyIsEnumerable")
  else if key = lit "__proto__" then some (.builtin "Object.prototype")
  else if key = lit "__defineGetter__" then
    some (.builtin "Object.prototype.__defineGetter__")
  else if key = lit "__defineSetter__" then
    some (.builtin "Object.prototype.__defineSetter__")
  else if key = lit "__lookupGetter__" then
    some (.builtin "Object.prototype.__lookupGetter__")
  else if key = lit "__lookupSetter__" then
    some (.builtin "Object.prototype.__lookupSetter__")
  else none

/-! ## The script: the document-ready handler -/

/-- The variables `baseUrl`, `cancelUrl` and `project` after lines 4-19. -/
structure Derived where
  baseUrl : JSString
  cancelUrl : JSString
  project : JSPrim
  deriving DecidableEq

/-- Lines 4-19 of the handler: the derivation of `baseUrl`, `cancelUrl` and
`project` from the `redirectUri` parameter. -/
def derive (env : Env) : Except JSError Derived :=
  let redirectUri := env.redirectUri
  if looseEqNullish redirectUri || looseEqString redirectUri (lit "") then
    let baseUrl := lit "http://eupathdb.org/eupathdb"
    let cancelUrl := baseUrl
    let project := JSPrim.str (lit "eupathdb")
    .ok { baseUrl := baseUrl, cancelUrl := cancelUrl, project := project }
  else
    let url := env.parseURL redirectUri
    let webappName := getWebappName url.pathname
    let hostParts := split url.host (lit ".")
    let baseUrl := url.protocol ++ lit "//" ++ url.host ++ lit "/" ++ webappName
    let cancelUrl : Except JSError JSString :=
      if looseEqNullish url.searchRedirectUrl then .ok baseUrl
      else decodeURIComponent url.searchRedirectUrl.toJSString
    match cancelUrl with
    | .error e => .error e
    | .ok cancelUrl =>
      let project := arrayGet hostParts ((hostParts.length : Int) - 2)
      let project :=
        if looseEqString project (lit "globus") || looseEqString project (lit "globusgenomics")
        then JSPrim.str (lit "eupathdb")
        else project
      .ok { baseUrl := baseUrl, cancelUrl := cancelUrl, project := project }

/-- The object literal `messages` of line 31, as its list of own properties. -/
def messages (baseUrl : JSString) : List (JSString × JSString) :=
  [ (lit "failed", lit "Invalid credentials.  Please try again."),
    (lit "error",
      lit "An error occurred during authentication.  Please feel free to try again."),
    (lit "accessdenied",
      lit "Your session has expired.<br/>Please revisit <a href=\"" ++ baseUrl ++ lit "\">"
        ++ baseUrl ++ lit "</a> and try again.") ]

/-- What the handler writes to the page: the `href` set on `#new-account` and on
`#forgot-password`, the location the click handler of `.cancel-button` assigns
to `window.location`, the selector of the logo given `display: inline`, and the
argument of the call `jQuery('.message').html(...)` (`none` when the call is not
made). -/
structure Page where
  newAccountHref : JSString
  forgotPasswordHref : JSString
  cancelLocation : JSString
  logoSelector : JSString
  messageHtml : Option JSValue
  deriving DecidableEq

/-- The document-ready handler (lines 1-40): the derivation, then the writes of
lines 21-38.  An exception thrown by the derivation ends the handler before any
write. -/
def handler (env : Env) : Except JSError Page :=
  match derive env with
  | .error e => .error e
  | .ok d =>
    let status := env.status
    let messages := messages d.baseUrl
    .ok
      { newAccountHref := d.baseUrl ++ lit "/showRegister.do"
        forgotPasswordHref := d.baseUrl ++ lit "/showResetPassword.do"
        cancelLocation := d.cancelUrl
        logoSelector := lit "#" ++ d.project.toJSString ++ lit "-logo"
        messageHtml :=
          if !looseEqNullish status then
            some (getProperty env.objectPrototype messages status.toJSString)
          else none }

/-- The hoisted variables `baseUrl`, `cancelUrl` and `project` of the handler; a
variable that has not been assigned is `undefined`. -/
structure Vars where
  baseUrl : JSPrim
  cancelUrl : JSPrim
  project : JSPrim
  deriving DecidableEq

/-- Lines 4-19 of the handler run on the hoisted variables: their values when
the lines end, either normally or by the exception thrown at line 16.  Line 14
has assigned `baseUrl` by then; the exception leaves `cancelUrl` and `project`
unassigned. -/
def deriveVars (env : Env) : Vars :=
  let redirectUri := env.redirectUri
  if looseEqNullish redirectUri || looseEqString redirectUri (lit "") then
    let baseUrl := lit "http://eupathdb.org/eupathdb"
    let cancelUrl := baseUrl
    let project := JSPrim.str (lit "eupathdb")
    { baseUrl := .str baseUrl, cancelUrl := .str cancelUrl, project := project }
  else
    let url := env.parseURL redirectUri
    let webappName := getWebappName url.pathname
    let hostParts := split url.host (lit ".")
    let baseUrl := url.protocol ++ lit "//" ++ url.host ++ lit "/" ++ webappName
    let cancelUrl : Except JSError JSString :=
      if looseEqNullish url.searchRedirectUrl then .ok baseUrl
      else decodeURIComponent url.searchRedirectUrl.toJSString
    match cancelUrl with
    | .error _ => { baseUrl := .str baseUrl, cancelUrl := .undefined, project := .undefined }
    | .ok cancelUrl =>
      let project := arrayGet hostParts ((hostParts.length : Int) - 2)
      let project :=
        if looseEqString project (lit "globus") || looseEqString project (lit "globusgenomics")
        then JSPrim.str (lit "eupathdb")
        else project
      { baseUrl := .str baseUrl, cancelUrl := .str cancelUrl, project := project }

/-- Modelled from the spec: the content of the message region after the call
`jQuery('.message').html(value)`; jQuery is not part of the script.  The spec
says the content of the region is replaced with the table entry, and that when
the lookup yields no value the region is cleared to empty content.  For any
other value the spec says nothing (`none`). -/
def messageContent : JSValue → Option JSString
  | .prim (.str entry) => some entry
  | .prim .undefined => some (lit "")
  | _ => none

/-! ## Specification-side definitions -/

/-- The code units of `s` before the first occurrence of `u`. -/
def upTo (u : Nat) : JSString → JSString
  | [] => []
  | c :: rest => if c = u then [] else c :: upTo u rest

/-- Cutting at every occurrence of one code unit `d`. -/
def pieces (d : Nat) : JSString → List JSString
  | [] => [[]]
  | c :: rest =>
    if c = d then [] :: pieces d rest
    else
      match pieces d rest with
      | [] => [[c]]
      | piece :: more => (c :: piece) :: more

/-- The element before the last one, `undefined` when there is none. -/
def secondToLast (xs : List JSString) : JSPrim :=
  match xs.reverse with
  | _ :: x :: _ => .str x
  | _ => .undefined

/-- The spec's normalisation of the host label: `globus` and `globusgenomics`
become `eupathdb`, any other value is kept. -/
def normalizeProject : JSPrim → JSPrim
  | .str label =>
    if label = lit "globus" ∨ label = lit "globusgenomics" then .str (lit "eupathdb")
    else .str label
  | other => other

/-- The base URL the redirect branch builds from a parsed URL, in the spec's
words: protocol, `//`, host, `/`, webapp name. -/
def redirectBaseUrl (url : ParsedURL) : JSString :=
  url.protocol ++ lit "//" ++ url.host ++ lit "/" ++ getWebappName url.pathname

/-- The nested `redirectUrl` of the parsed redirect URL is absent (`undefined`
or `null`) or is a string that `decodeURIComponent` accepts. -/
def NestedDecodes (env : Env) : Prop :=
  looseEqNullish (env.parseURL env.redirectUri).searchRedirectUrl = true ∨
  ∃ v c, (env.parseURL env.redirectUri).searchRedirectUrl = .str v ∧
    decodeURIComponent v = .ok c

/-- The page URL has no `redirectUri` or an empty one, or its nested
`redirectUrl` is absent or accepted by `decodeURIComponent`. -/
def WellEncoded (env : Env) : Prop :=
  (env.redirectUri = .undefined ∨ env.redirectUri = .null ∨
    env.redirectUri = .str (lit "")) ∨ NestedDecodes env

/-! ## Concrete page URLs -/

/-- A `parseURL` result for `http://www.plasmodb.org/plasmo/showLogin.do?redirectUrl=http%3A%2F%2Ffoo`. -/
def plasmoURL : ParsedURL :=
  { protocol := lit "http:", host := lit "www.plasmodb.org",
    pathname := lit "/plasmo/showLogin.do", searchRedirectUrl := .str (lit "http%3A%2F%2Ffoo") }

/-- The page URL whose `redirectUri` is that URL, with `status=accessdenied`. -/
def plasmoEnv : Env :=
  { redirectUri := .str (lit "http://www.plasmodb.org/plasmo/showLogin.do?redirectUrl=http%3A%2F%2Ffoo"),
    status := .str (lit "accessdenied"),
    parseURL := fun _ => plasmoURL,
    objectPrototype := standardObjectPrototype }

/-- An environment without `redirectUri` and without `status`. -/
def bareEnv : Env :=
  { redirectUri := .undefined, status := .undefined,
    parseURL := fun _ => plasmoURL, objectPrototype := standardObjectPrototype }

/-- A `parseURL` result for `http://myglobus.org/app/showLogin.do`. -/
def myglobusURL : ParsedURL :=
  { protocol := lit "http:", host := lit "myglobus.org",
    pathname := lit "/app/showLogin.do", searchRedirectUrl := .undefined }

/-- The page URL whose `redirectUri` is `http://myglobus.org/app/showLogin.do`. -/
def myglobusEnv : Env :=
  { redirectUri := .str (lit "http://myglobus.org/app/showLogin.do"),
    status := .undefined,
    parseURL := fun _ => myglobusURL,
    objectPrototype := standardObjectPrototype }

/-- A `parseURL` result for `https://www.globus.org/app/login`. -/
def globusURL : ParsedURL :=
  { protocol := lit "https:", host := lit "www.globus.org",
    pathname := lit "/app/login", searchRedirectUrl := .undefined }

/-- The page URL whose `redirectUri` is `https://www.globus.org/app/login`. -/
def globusEnv : Env :=
  { redirectUri := .str (lit "https://www.globus.org/app/login"),
    status := .undefined,
    parseURL := fun _ => globusURL,
    objectPrototype := standardObjectPrototype }

/-- The page URL without `redirectUri` and with `status=constructor`. -/
def constructorEnv : Env :=
  { redirectUri := .undefined, status := .str (lit "constructor"),
    parseURL := fun _ => plasmoURL, objectPrototype := standardObjectPrototype }

/-- The page URL without `redirectUri` and with `status=bogus`. -/
def bogusEnv : Env :=
  { redirectUri := .undefined, status := .str (lit "bogus"),
    parseURL := fun _ => plasmoURL, objectPrototype := standardObjectPrototype }

/-- A `parseURL` result for `http://localhost?redirectUrl=%`. -/
def malformedURL : ParsedURL :=
  { protocol := lit "http:", host := lit "localhost",
    pathname := lit "/", searchRedirectUrl := .str (lit "%") }

/-- The page URL whose `redirectUri` is `http://localhost?redirectUrl=%`. -/
def malformedEnv : Env :=
  { redirectUri := .str (lit "http://localhost?redirectUrl=%"),
    status := .undefined,
    parseURL := fun _ => malformedURL,
    objectPrototype := standardObjectPrototype }

/-- A `parseURL` result for `http://www.plasmodb.org/plasmo/showLogin.do?redirectUrl=%`. -/
def plasmoPercentURL : ParsedURL :=
  { protocol := lit "http:", host := lit "www.plasmodb.org",
    pathname := lit "/plasmo/showLogin.do", searchRedirectUrl := .str (lit "%") }

/-- The page URL whose `redirectUri` is that URL. -/
def plasmoPercentEnv : Env :=
  { redirectUri := .str (lit "http://www.plasmodb.org/plasmo/showLogin.do?redirectUrl=%"),
    status := .undefined,
    parseURL := fun _ => plasmoPercentURL,
    objectPrototype := standardObjectPrototype }

/-- A `parseURL` result for `http://www.plasmodb.org/plasmo/showLogin.do?redirectUrl=%E0%A4%A`. -/
def truncatedURL : ParsedURL :=
  { protocol := lit "http:", host := lit "www.plasmodb.org",
    pathname := lit "/plasmo/showLogin.do", searchRedirectUrl := .str (lit "%E0%A4%A") }

/-- The page URL whose `redirectUri` is that URL, with `status=failed`. -/
def failedTruncatedEnv : Env :=
  { redirectUri := .str (lit "http://www.plasmodb.org/plasmo/showLogin.do?redirectUrl=%E0%A4%A"),
    status := .str (lit "failed"),
    parseURL := fun _ => truncatedURL,
    objectPrototype := standardObjectPrototype }

/-- A `parseURL` result for `https://www.globus.org/app/login?redirectUrl=%`. -/
def globusPercentURL : ParsedURL :=
  { protocol := lit "https:", host := lit "www.globus.org",
    pathname := lit "/app/login", searchRedirectUrl := .str (lit "%") }

/-- The page URL whose `redirectUri` is that URL. -/
def globusPercentEnv : Env :=
  { redirectUri := .str (lit "https://www.globus.org/app/login?redirectUrl=%"),
    status := .undefined,
    parseURL := fun _ => globusPercentURL,
    objectPrototype := standardObjectPrototype }

/-- The page URL with `status=bogus` whose `redirectUri` is
`http://localhost?redirectUrl=%`. -/
def bogusPercentEnv : Env :=
  { redirectUri := .str (lit "http://localhost?redirectUrl=%"),
    status := .str (lit "bogus"),
    parseURL := fun _ => malformedURL,
    objectPrototype := standardObjectPrototype }

/-- A `parseURL` result for `http://localhost`. -/
def localhostURL : ParsedURL :=
  { protocol := lit "http:", host := lit "localhost",
    pathname := lit "/", searchRedirectUrl := .undefined }

/-- The page URL whose `redirectUri` is `http://localhost`. -/
def localhostEnv : Env :=
  { redirectUri := .str (lit "http://localhost"),
    status := .undefined,
    parseURL := fun _ => localhostURL,
    objectPrototype := standardObjectPrototype }

/-! ## The built-ins on sample inputs -/

/-- An escape sequence that decodes never reads past the end of the string. -/
theorem escapeSequence_consumed (rest units : JSString) (n : Nat)
    (h : escapeSequence rest = .ok (units, n)) : n ≤ rest.length := by
  unfold escapeSequence codePoint at h
  repeat' split at h
  all_goals first
    | (simp at h; done)
    | (simp only [Except.ok.injEq, Prod.mk.injEq] at h
       obtain ⟨_, rfl⟩ := h
       simp only [List.length_cons]
       omega)

theorem split_samples :
    split (lit "www.plasmodb.org") (lit ".") = [lit "www", lit "plasmodb", lit "org"] ∧
    split (lit "a..") (lit ".") = [lit "a", lit "", lit ""] ∧
    split (lit "") (lit ".") = [lit ""] ∧
    split (lit "a--b-c--") (lit "--") = [lit "a", lit "b-c", lit ""] ∧
    split (lit "ab") (lit "") = [lit "a", lit "b"] := by
  decide

theorem decodeURIComponent_samples :
    decodeURIComponent (lit "http%3A%2F%2Ffoo") = .ok (lit "http://foo") ∧
    decodeURIComponent (lit "a%20b+c") = .ok (lit "a b+c") ∧
    decodeURIComponent (lit "%C3%A9") = .ok [0xE9] ∧
    decodeURIComponent (lit "%E2%82%AC") = .ok [0x20AC] ∧
    decodeURIComponent (lit "%F0%9F%98%80") = .ok [0xD83D, 0xDE00] ∧
    decodeURIComponent (lit "%") = .error .URIError ∧
    decodeURIComponent (lit "%4") = .error .URIError ∧
    decodeURIComponent (lit "%zz") = .error .URIError ∧
    decodeURIComponent (lit "%80") = .error .URIError ∧
    decodeURIComponent (lit "%C3") = .error .URIError ∧
    decodeURIComponent (lit "%C3x") = .error .URIError ∧
    decodeURIComponent (lit "%C0%80") = .error .URIError ∧
    decodeURIComponent (lit "%E0%80%80") = .error .URIError ∧
    decodeURIComponent (lit "%ED%A0%80") = .error .URIError ∧
    decodeURIComponent (lit "%F4%90%80%80") = .error .URIError := by
  decide

/-! ## Lemmas on the string built-ins -/

theorem substring_from_one (s : JSString) : substring s 1 none = s.drop 1 := by
  cases s with
  | nil => simp [substring, clampPos]
  | cons c rest => simp [substring, clampPos]

theorem substring_zero_to (s : JSString) (n : Nat) :
    substring s 0 (some (n : Int)) = s.take n := by
  have hn : ¬ ((n : Int) < 0) := by omega
  simp [substring, clampPos, List.take_take, hn]

theorem upTo_eq_self (u : Nat) (s : JSString) (h : u ∉ s) : upTo u s = s := by
  induction s with
  | nil => rfl
  | cons c rest ih =>
    simp only [List.mem_cons, not_or] at h
    have hc : ¬ c = u := fun e => h.1 e.symm
    simp [upTo, hc, ih h.2]

theorem upTo_append (u : Nat) (seg tail : JSString) (h : u ∉ seg) :
    upTo u (seg ++ u :: tail) = seg := by
  induction seg with
  | nil => simp [upTo]
  | cons c rest ih =>
    simp only [List.mem_cons, not_or] at h
    have hc : ¬ c = u := fun e => h.1 e.symm
    simp [upTo, hc, ih h.2]

theorem not_mem_upTo (u : Nat) (s : JSString) : u ∉ upTo u s := by
  induction s with
  | nil => simp [upTo]
  | cons c rest ih =>
    by_cases hc : c = u
    · simp [upTo, hc]
    · have hc2 : ¬ u = c := fun e => hc e.symm
      simp [upTo, hc, hc2, ih]

theorem take_length_upTo (u : Nat) (s : JSString) : s.take (upTo u s).length = upTo u s := by
  induction s with
  | nil => rfl
  | cons c rest ih =>
    by_cases hc : c = u
    · simp [upTo, hc]
    · simp [upTo, hc, ih]

theorem indexOf_unit (u : Nat) (s : JSString) :
    indexOf s [u] = if u ∈ s then ((upTo u s).length : Int) else -1 := by
  induction s with
  | nil => simp [indexOf]
  | cons c rest ih =>
    by_cases hc : u = c
    · subst hc
      simp [indexOf, List.isPrefixOf, upTo]
    · have hc2 : ¬ c = u := fun h => hc h.symm
      simp only [indexOf, List.isPrefixOf, ih]
      by_cases hm : u ∈ rest
      · have hlen : ¬ (((upTo u rest).length : Int) = -1) := by omega
        simp [hc, hc2, hm, upTo, hlen]
      · simp [hc, hc2, hm]

/-- The value of `getWebappName`: the code units after the first one, up to the
first `/` among them. -/
theorem getWebappName_eq (pathname : JSString) :
    getWebappName pathname = upTo 0x2F (pathname.drop 1) := by
  have hl : lit "/" = [0x2F] := by decide
  simp only [getWebappName, substring_from_one, hl, indexOf_unit]
  by_cases hm : 0x2F ∈ pathname.drop 1
  · simp only [hm, if_true]
    have hne : ((upTo 0x2F (List.drop 1 pathname)).length : Int) ≠ -1 := by omega
    rw [if_pos hne, substring_zero_to]
    exact take_length_upTo _ _
  · simp only [hm, if_false]
    have hne : ¬ ((-1 : Int) ≠ -1) := by simp
    rw [if_neg hne]
    exact (upTo_eq_self _ _ hm).symm

theorem splitScan_unit (d : Nat) (s : JSString) : splitScan [d] s 0 = pieces d s := by
  induction s with
  | nil => rfl
  | cons c rest ih =>
    by_cases hc : c = d
    · subst hc
      simp [splitScan, pieces, List.isPrefixOf, ih]
    · have hc2 : ¬ d = c := fun e => hc e.symm
      simp [splitScan, pieces, List.isPrefixOf, ih, hc, hc2]

theorem split_unit (d : Nat) (s : JSString) : split s [d] = pieces d s := by
  simp [split, splitScan_unit]

theorem pieces_ne_nil (d : Nat) (s : JSString) : pieces d s ≠ [] := by
  cases s with
  | nil => simp [pieces]
  | cons c rest =>
    by_cases hc : c = d
    · simp [pieces, hc]
    · simp only [pieces, hc, if_false]
      split <;> simp

theorem pieces_of_not_mem (d : Nat) (s : JSString) (h : d ∉ s) : pieces d s = [s] := by
  induction s with
  | nil => rfl
  | cons c rest ih =>
    simp only [List.mem_cons, not_or] at h
    have hc : ¬ c = d := fun e => h.1 e.symm
    simp [pieces, hc, ih h.2]

theorem pieces_append (d : Nat) (a b : JSString) :
    pieces d (a ++ d :: b) = pieces d a ++ pieces d b := by
  induction a with
  | nil => simp [pieces]
  | cons c rest ih =>
    by_cases hc : c = d
    · simp [pieces, hc, ih]
    · simp only [List.cons_append, pieces, hc, if_false]
      have ih2 : pieces d (rest.append (d :: b)) = pieces d rest ++ pieces d b := ih
      rw [ih2]
      cases hp : pieces d rest with
      | nil => exact absurd hp (pieces_ne_nil d rest)
      | cons piece more => simp

theorem arrayGet_secondToLast (xs : List JSString) :
    arrayGet xs ((xs.length : Int) - 2) = secondToLast xs := by
  unfold secondToLast
  rcases hr : xs.reverse with _ | ⟨a, _ | ⟨b, t⟩⟩
  · have hx : xs = [] := by simpa using hr
    subst hx
    simp [arrayGet]
  · have hx : xs = [a] := by
      have := congrArg List.reverse hr
      simpa using this
    subst hx
    simp [arrayGet]
  · have hx : xs = t.reverse ++ [b, a] := by
      have := congrArg List.reverse hr
      simpa using this
    subst hx
    have hi : ((t.reverse ++ [b, a]).length : Int) - 2 = (t.length : Int) := by
      simp
    rw [hi]
    have hn : ¬ ((t.length : Int) < 0) := by omega
    have hg : (t.reverse ++ [b, a])[t.length]? = some b := by
      rw [List.getElem?_append_right (by simp)]
      simp
    simp only [arrayGet, hn, if_false, Int.toNat_ofNat, hg]

/-! ## Lemmas on the derivation -/

theorem normalize_eq (p : JSPrim) :
    (if looseEqString p (lit "globus") || looseEqString p (lit "globusgenomics")
      then JSPrim.str (lit "eupathdb") else p) = normalizeProject p := by
  cases p with
  | undefined => simp [looseEqString, normalizeProject]
  | null => simp [looseEqString, normalizeProject]
  | str t =>
    by_cases h1 : t = lit "globus"
    · simp [looseEqString, normalizeProject, h1]
    · by_cases h2 : t = lit "globusgenomics"
      · simp [looseEqString, normalizeProject, h2]
      · simp [looseEqString, normalizeProject, h1, h2]

theorem redirect_branch (env : Env) (s : JSString) (hs : env.redirectUri = .str s)
    (hne : s ≠ lit "") :
    (looseEqNullish env.redirectUri || looseEqString env.redirectUri (lit "")) = false := by
  simp [hs, looseEqNullish, looseEqString, hne]

theorem derive_redirect_absent (env : Env) (s : JSString) (hs : env.redirectUri = .str s)
    (hne : s ≠ lit "")
    (hq : looseEqNullish (env.parseURL env.redirectUri).searchRedirectUrl = true) :
    derive env = .ok
      { baseUrl := redirectBaseUrl (env.parseURL env.redirectUri)
        cancelUrl := redirectBaseUrl (env.parseURL env.redirectUri)
        project := normalizeProject
          (secondToLast (split (env.parseURL env.redirectUri).host (lit "."))) } := by
  have hb := redirect_branch env s hs hne
  simp only [derive, hb, hq, if_true, normalize_eq, arrayGet_secondToLast, redirectBaseUrl]
  simp

theorem derive_redirect_present (env : Env) (s : JSString) (hs : env.redirectUri = .str s)
    (hne : s ≠ lit "") (v : JSString)
    (hq : (env.parseURL env.redirectUri).searchRedirectUrl = .str v) :
    derive env =
      match decodeURIComponent v with
      | .error e => .error e
      | .ok c => .ok
        { baseUrl := redirectBaseUrl (env.parseURL env.redirectUri)
          cancelUrl := c
          project := normalizeProject
            (secondToLast (split (env.parseURL env.redirectUri).host (lit "."))) } := by
  have hb := redirect_branch env s hs hne
  have hn : looseEqNullish (JSPrim.str v) = false := rfl
  simp only [derive, hb, hq, hn, JSPrim.toJSString, normalize_eq,
    arrayGet_secondToLast, redirectBaseUrl]
  simp

/-- In the redirect branch the derivation completes when the nested
`redirectUrl` is absent or accepted by `decodeURIComponent`. -/
theorem derive_redirect_of_decodes (env : Env) (s : JSString)
    (hs : env.redirectUri = .str s) (hne : s ≠ lit "") (hq : NestedDecodes env) :
    ∃ c, derive env = .ok
      { baseUrl := redirectBaseUrl (env.parseURL env.redirectUri)
        cancelUrl := c
        project := normalizeProject
          (secondToLast (split (env.parseURL env.redirectUri).host (lit "."))) } := by
  rcases hq with h | ⟨v, c, hv, hc⟩
  · exact ⟨_, derive_redirect_absent env s hs hne h⟩
  · have hd := derive_redirect_present env s hs hne v hv
    rw [hc] at hd
    exact ⟨c, hd⟩

theorem derive_default (env : Env)
    (h : env.redirectUri = .undefined ∨ env.redirectUri = .null ∨
      env.redirectUri = .str (lit "")) :
    derive env = .ok
      { baseUrl := lit "http://eupathdb.org/eupathdb"
        cancelUrl := lit "http://eupathdb.org/eupathdb"
        project := .str (lit "eupathdb") } := by
  rcases h with h | h | h <;> simp [derive, h, looseEqNullish, looseEqString]

theorem derive_of_wellEncoded (env : Env) (h : WellEncoded env) : ∃ d, derive env = .ok d := by
  rcases h with h | h
  · exact ⟨_, derive_default env h⟩
  · cases hr : env.redirectUri with
    | undefined => exact ⟨_, derive_default env (Or.inl hr)⟩
    | null => exact ⟨_, derive_default env (Or.inr (Or.inl hr))⟩
    | str s =>
      by_cases hne : s = lit ""
      · subst hne
        exact ⟨_, derive_default env (Or.inr (Or.inr hr))⟩
      · obtain ⟨c, hc⟩ := derive_redirect_of_decodes env s hr hne h
        exact ⟨_, hc⟩

theorem deriveVars_baseUrl_redirect (env : Env) (s : JSString)
    (hs : env.redirectUri = .str s) (hne : s ≠ lit "") :
    (deriveVars env).baseUrl = .str (redirectBaseUrl (env.parseURL env.redirectUri)) := by
  have hb := redirect_branch env s hs hne
  simp only [deriveVars, hb, redirectBaseUrl]
  simp only [Bool.false_eq_true, if_false]
  split <;> rfl

/-- When the derivation completes, the variables hold the derived values. -/
theorem deriveVars_of_ok (env : Env) (d : Derived) (hd : derive env = .ok d) :
    deriveVars env =
      { baseUrl := .str d.baseUrl, cancelUrl := .str d.cancelUrl, project := d.project } := by
  cases hc : (looseEqNullish env.redirectUri || looseEqString env.redirectUri (lit ""))
  · simp only [derive, hc, Bool.false_eq_true, if_false] at hd
    simp only [deriveVars, hc, Bool.false_eq_true, if_false]
    split at hd
    · cases hd
    · rename_i c hcu
      try simp only [hcu]
      cases hd
      rfl
  · simp only [derive, hc, if_true] at hd
    simp only [deriveVars, hc, if_true]
    cases hd
    rfl

/-- When line 16 throws, `cancelUrl` and `project` are left unassigned. -/
theorem deriveVars_of_error (env : Env) (e : JSError) (hd : derive env = .error e) :
    (deriveVars env).cancelUrl = .undefined ∧ (deriveVars env).project = .undefined := by
  cases hc : (looseEqNullish env.redirectUri || looseEqString env.redirectUri (lit ""))
  · simp only [derive, hc, Bool.false_eq_true, if_false] at hd
    simp only [deriveVars, hc, Bool.false_eq_true, if_false]
    split at hd
    · rename_i e2 hcu
      simp [hcu]
    · cases hd
  · simp only [derive, hc, if_true] at hd
    cases hd

theorem handler_of_derive (env : Env) (d : Derived) (hd : derive env = .ok d) :
    handler env = .ok
      { newAccountHref := d.baseUrl ++ lit "/showRegister.do"
        forgotPasswordHref := d.baseUrl ++ lit "/showResetPassword.do"
        cancelLocation := d.cancelUrl
        logoSelector := lit "#" ++ d.project.toJSString ++ lit "-logo"
        messageHtml :=
          if !looseEqNullish env.status then
            some (getProperty env.objectPrototype (messages d.baseUrl) env.status.toJSString)
          else none } := by
  simp only [handler, hd]

theorem handler_of_throw (env : Env) (e : JSError) (hd : derive env = .error e) :
    handler env = .error e := by
  simp only [handler, hd]

/-! ## The claims -/

/-- C1: when `redirectUri` is `undefined`, `null` or the empty string, the
derivation completes with base URL `http://eupathdb.org/eupathdb`, a cancel URL
equal to the base URL, and project `eupathdb`. -/
theorem default_branch_values (env : Env)
    (h : env.redirectUri = .undefined ∨ env.redirectUri = .null ∨
      env.redirectUri = .str (lit "")) :
    ∃ d, derive env = .ok d ∧ d.baseUrl = lit "http://eupathdb.org/eupathdb" ∧
      d.cancelUrl = d.baseUrl ∧ d.project = .str (lit "eupathdb") :=
  ⟨_, derive_default env h, rfl, rfl, rfl⟩

theorem default_branch_values_witness :
    bareEnv.redirectUri = .undefined ∧
    ∃ d, derive bareEnv = .ok d ∧ d.baseUrl = lit "http://eupathdb.org/eupathdb" ∧
      d.cancelUrl = d.baseUrl ∧ d.project = .str (lit "eupathdb") :=
  ⟨rfl, default_branch_values bareEnv (Or.inl rfl)⟩

/-- C2: for every non-empty `redirectUri`, once line 14 has run the variable
`baseUrl` holds the parsed protocol, `//`, the host, `/` and
`getWebappName(pathname)`, whether or not the later lines throw, and a
derivation that completes returns that base URL; with protocol `http:`, host
`www.plasmodb.org` and pathname `/plasmo/showLogin.do` the base URL is
`http://www.plasmodb.org/plasmo`. -/
theorem redirect_base_url (env : Env) (s : JSString) (hs : env.redirectUri = .str s)
    (hne : s ≠ lit "") :
    (deriveVars env).baseUrl = .str
      ((env.parseURL env.redirectUri).protocol ++ lit "//" ++
        (env.parseURL env.redirectUri).host ++ lit "/" ++
        getWebappName (env.parseURL env.redirectUri).pathname) ∧
    (∀ d, derive env = .ok d →
      d.baseUrl = (env.parseURL env.redirectUri).protocol ++ lit "//" ++
        (env.parseURL env.redirectUri).host ++ lit "/" ++
        getWebappName (env.parseURL env.redirectUri).pathname) ∧
    ((env.parseURL env.redirectUri).protocol = lit "http:" →
      (env.parseURL env.redirectUri).host = lit "www.plasmodb.org" →
      (env.parseURL env.redirectUri).pathname = lit "/plasmo/showLogin.do" →
      (deriveVars env).baseUrl = .str (lit "http://www.plasmodb.org/plasmo")) := by
  have hv := deriveVars_baseUrl_redirect env s hs hne
  refine ⟨hv, ?_, ?_⟩
  · intro d hd
    have h2 := deriveVars_of_ok env d hd
    rw [h2] at hv
    exact JSPrim.str.inj hv
  · intro h1 h2 h3
    rw [hv]
    simp only [redirectBaseUrl, h1, h2, h3]
    decide

theorem redirect_base_url_witness :
    (deriveVars plasmoEnv).baseUrl = .str (lit "http://www.plasmodb.org/plasmo") ∧
    derive plasmoEnv = .ok
      { baseUrl := lit "http://www.plasmodb.org/plasmo", cancelUrl := lit "http://foo",
        project := .str (lit "plasmodb") } ∧
    (deriveVars plasmoPercentEnv).baseUrl = .str (lit "http://www.plasmodb.org/plasmo") ∧
    derive plasmoPercentEnv = .error .URIError :=
  ⟨(redirect_base_url plasmoEnv _ rfl (by decide)).2.2 rfl rfl rfl, by decide,
    (redirect_base_url plasmoPercentEnv _ rfl (by decide)).2.2 rfl rfl rfl, by decide⟩

/-- C3: for a non-empty `redirectUri`, when the nested `redirectUrl` is absent
the derivation completes with a cancel URL equal to the base URL; when it is
the string `v` the cancel URL computed is exactly the outcome of
`decodeURIComponent(v)` (its decoded value, or its `URIError`); for the nested
value `http%3A%2F%2Ffoo` the cancel URL is `http://foo`. -/
theorem redirect_cancel_url (env : Env) (s : JSString) (hs : env.redirectUri = .str s)
    (hne : s ≠ lit "") :
    (looseEqNullish (env.parseURL env.redirectUri).searchRedirectUrl = true →
      ∃ d, derive env = .ok d ∧ d.cancelUrl = d.baseUrl) ∧
    (∀ v, (env.parseURL env.redirectUri).searchRedirectUrl = .str v →
      (derive env).map (fun d => d.cancelUrl) = decodeURIComponent v) ∧
    ((env.parseURL env.redirectUri).searchRedirectUrl = .str (lit "http%3A%2F%2Ffoo") →
      ∃ d, derive env = .ok d ∧ d.cancelUrl = lit "http://foo") := by
  refine ⟨?_, ?_, ?_⟩
  · intro hq
    exact ⟨_, derive_redirect_absent env s hs hne hq, rfl⟩
  · intro v hq
    rw [derive_redirect_present env s hs hne v hq]
    cases decodeURIComponent v <;> rfl
  · intro hq
    have hd := derive_redirect_present env s hs hne _ hq
    have hdec : decodeURIComponent (lit "http%3A%2F%2Ffoo") = .ok (lit "http://foo") := by decide
    rw [hdec] at hd
    exact ⟨_, hd, rfl⟩

theorem redirect_cancel_url_witness :
    ∃ d, derive plasmoEnv = .ok d ∧ d.cancelUrl = lit "http://foo" :=
  (redirect_cancel_url plasmoEnv _ rfl (by decide)).2.2 rfl

/-- C4 (as stated) fails: with the non-empty `redirectUri`
`http://www.plasmodb.org/plasmo/showLogin.do?redirectUrl=%` the second-to-last
piece of the host is `plasmodb`, but line 16 throws `URIError` before line 17
and `project` is never assigned. -/
theorem project_unassigned_counterexample :
    plasmoPercentEnv.redirectUri =
      .str (lit "http://www.plasmodb.org/plasmo/showLogin.do?redirectUrl=%") ∧
    (plasmoPercentEnv.parseURL plasmoPercentEnv.redirectUri).host = lit "www.plasmodb.org" ∧
    secondToLast (split (plasmoPercentEnv.parseURL plasmoPercentEnv.redirectUri).host (lit ".")) =
      .str (lit "plasmodb") ∧
    derive plasmoPercentEnv = .error .URIError ∧
    (deriveVars plasmoPercentEnv).project = .undefined ∧
    (deriveVars plasmoPercentEnv).project ≠ .str (lit "plasmodb") :=
  ⟨rfl, rfl, by decide, by decide, by decide, by decide⟩

/-- C4 (amended): for a non-empty `redirectUri` whose nested `redirectUrl` is
absent or accepted by `decodeURIComponent`, the derivation completes with the
project equal to the second-to-last piece of the host split on `.`
(`undefined` when the host has a single piece), where `globus` and
`globusgenomics` are replaced by `eupathdb`; for host `www.plasmodb.org` the
project is `plasmodb`. -/
theorem redirect_project (env : Env) (s : JSString) (hs : env.redirectUri = .str s)
    (hne : s ≠ lit "") (hq : NestedDecodes env) :
    ∃ d, derive env = .ok d ∧
      d.project = normalizeProject
        (secondToLast (split (env.parseURL env.redirectUri).host (lit "."))) ∧
      ((env.parseURL env.redirectUri).host = lit "www.plasmodb.org" →
        d.project = .str (lit "plasmodb")) := by
  obtain ⟨c, hc⟩ := derive_redirect_of_decodes env s hs hne hq
  refine ⟨_, hc, rfl, ?_⟩
  intro h
  simp only [h]
  decide

theorem redirect_project_witness :
    ∃ d, derive plasmoEnv = .ok d ∧ d.project = .str (lit "plasmodb") := by
  obtain ⟨d, hd, _, h⟩ := redirect_project plasmoEnv _ rfl (by decide)
    (Or.inr ⟨lit "http%3A%2F%2Ffoo", lit "http://foo", rfl, by decide⟩)
  exact ⟨d, hd, h rfl⟩

/-- C5: `getWebappName` returns the first path segment: for a pathname made of
`/`, a segment without `/`, and then either nothing or `/` and any tail, the
result is that segment; the result never contains `/`;
`getWebappName('/plasmo/showLogin.do')` is `plasmo` and `getWebappName('/')` is
the empty string. -/
theorem getWebappName_first_segment (seg tail : JSString) (hseg : 0x2F ∉ seg) :
    getWebappName (lit "/" ++ seg ++ lit "/" ++ tail) = seg ∧
    getWebappName (lit "/" ++ seg) = seg ∧
    (∀ pathname, 0x2F ∉ getWebappName pathname) ∧
    getWebappName (lit "/plasmo/showLogin.do") = lit "plasmo" ∧
    getWebappName (lit "/") = lit "" := by
  have hl : lit "/" = [0x2F] := by decide
  refine ⟨?_, ?_, ?_, by decide, by decide⟩
  · rw [getWebappName_eq, hl]
    simpa using upTo_append 0x2F seg tail hseg
  · rw [getWebappName_eq, hl]
    simpa using upTo_eq_self 0x2F seg hseg
  · intro pathname
    rw [getWebappName_eq]
    exact not_mem_upTo _ _

theorem getWebappName_first_segment_witness :
    getWebappName (lit "/" ++ lit "plasmo" ++ lit "/" ++ lit "showLogin.do") = lit "plasmo" ∧
    getWebappName (lit "/" ++ lit "plasmo") = lit "plasmo" :=
  ⟨(getWebappName_first_segment (lit "plasmo") (lit "showLogin.do") (by decide)).1,
    (getWebappName_first_segment (lit "plasmo") (lit "showLogin.do") (by decide)).2.1⟩

theorem secondToLast_append_two (xs : List JSString) (a b : JSString) :
    secondToLast (xs ++ [a, b]) = .str a := by
  simp [secondToLast]

theorem secondToLast_split_suffix (p label last : JSString) (h1 : 0x2E ∉ label)
    (h2 : 0x2E ∉ last) :
    secondToLast (split (p ++ 0x2E :: (label ++ 0x2E :: last)) (lit ".")) = .str label := by
  have hl : lit "." = [0x2E] := by decide
  rw [hl, split_unit, pieces_append, pieces_append, pieces_of_not_mem _ _ h1,
    pieces_of_not_mem _ _ h2]
  exact secondToLast_append_two _ _ _

theorem decode_of_no_percent (v : JSString) (h : 0x25 ∉ v) : decode v = .ok v := by
  induction v with
  | nil => rfl
  | cons c rest ih =>
    simp only [List.mem_cons, not_or] at h
    have hc : c ≠ 0x25 := fun e => h.1 e.symm
    have ih2 : decodeScan rest 0 = .ok rest := ih h.2
    simp only [decode, decodeScan, hc, ne_eq, not_false_eq_true, if_true, ih2]
    rfl

/-- With a completed derivation and `status` a key of the message table, the
argument of `html()` is the table entry. -/
theorem message_of_derive (env : Env) (d : Derived) (hd : derive env = .ok d) (k : JSString)
    (hk : env.status = .str k) :
    ∃ page, handler env = .ok page ∧
      (∀ m, (messages d.baseUrl).lookup k = some m →
        page.messageHtml = some (.prim (.str m))) ∧
      (k = lit "failed" →
        page.messageHtml = some (.prim (.str (lit "Invalid credentials.  Please try again.")))) ∧
      (k = lit "error" →
        page.messageHtml = some (.prim (.str
          (lit "An error occurred during authentication.  Please feel free to try again.")))) ∧
      (k = lit "accessdenied" →
        page.messageHtml = some (.prim (.str
          (lit "Your session has expired.<br/>Please revisit " ++
            (lit "<a href=\"" ++ d.baseUrl ++ lit "\">" ++ d.baseUrl ++ lit "</a>") ++
            lit " and try again.")))) := by
  have hn : looseEqNullish env.status = false := by rw [hk]; rfl
  have hgen : ∀ m, (messages d.baseUrl).lookup k = some m →
      (if !looseEqNullish env.status then
        some (getProperty env.objectPrototype (messages d.baseUrl) env.status.toJSString)
      else none) = some (.prim (.str m)) := by
    intro m hm
    simp only [hn, hk, JSPrim.toJSString, getProperty, hm]
    rfl
  refine ⟨_, handler_of_derive env d hd, hgen, ?_, ?_, ?_⟩
  · intro h
    subst h
    refine hgen _ ?_
    have h1 : (lit "failed" == lit "failed") = true := by decide
    simp only [messages, List.lookup, h1]
  · intro h
    subst h
    refine hgen _ ?_
    have h1 : (lit "error" == lit "failed") = false := by decide
    have h2 : (lit "error" == lit "error") = true := by decide
    simp only [messages, List.lookup, h1, h2]
  · intro h
    subst h
    have hm : (messages d.baseUrl).lookup (lit "accessdenied") = some
        (lit "Your session has expired.<br/>Please revisit <a href=\"" ++ d.baseUrl ++ lit "\">"
          ++ d.baseUrl ++ lit "</a> and try again.") := by
      simp only [messages, List.lookup]
      have h1 : (lit "accessdenied" == lit "failed") = false := by decide
      have h2 : (lit "accessdenied" == lit "error") = false := by decide
      have h3 : (lit "accessdenied" == lit "accessdenied") = true := by decide
      simp only [h1, h2, h3]
    rw [hgen _ hm]
    have e1 : lit "Your session has expired.<br/>Please revisit <a href=\"" =
        lit "Your session has expired.<br/>Please revisit " ++ lit "<a href=\"" := by decide
    have e2 : lit "</a> and try again." = lit "</a>" ++ lit " and try again." := by decide
    rw [e1, e2]
    simp only [List.append_assoc]

/-- With a completed derivation, a `status` that names no own and no inherited
property makes the argument of `html()` `undefined`, and a missing `status`
means no call. -/
theorem unknown_key_of_derive (env : Env) (d : Derived) (hd : derive env = .ok d) :
    (∀ k, env.status = .str k → k ≠ lit "failed" → k ≠ lit "error" →
      k ≠ lit "accessdenied" → env.objectPrototype k = none →
      getProperty env.objectPrototype (messages d.baseUrl) k = .prim .undefined ∧
      ∃ page, handler env = .ok page ∧ page.messageHtml = some (.prim .undefined)) ∧
    (env.status = .undefined ∨ env.status = .null →
      ∃ page, handler env = .ok page ∧ page.messageHtml = none) := by
  constructor
  · intro k hk h1 h2 h3 hp
    have hl : (messages d.baseUrl).lookup k = none := by
      have b1 : (k == lit "failed") = false := by simpa using h1
      have b2 : (k == lit "error") = false := by simpa using h2
      have b3 : (k == lit "accessdenied") = false := by simpa using h3
      simp only [messages, List.lookup, b1, b2, b3]
    have hg : getProperty env.objectPrototype (messages d.baseUrl) k = .prim .undefined := by
      simp only [getProperty, hl, hp]
    refine ⟨hg, _, handler_of_derive env d hd, ?_⟩
    have hn : looseEqNullish env.status = false := by rw [hk]; rfl
    simp only [hn, hk, JSPrim.toJSString, hg]
    rfl
  · intro h
    refine ⟨_, handler_of_derive env d hd, ?_⟩
    have hn : looseEqNullish env.status = true := by
      rcases h with h | h <;> rw [h] <;> rfl
    simp only [hn]
    rfl

/-- C6 (as stated) fails: on the page URL whose `redirectUri` is
`http://localhost?redirectUrl=%` line 14 assigns the base URL
`http://localhost/`, line 16 throws `URIError`, and the handler ends without
setting either link. -/
theorem links_unset_counterexample :
    malformedEnv.redirectUri = .str (lit "http://localhost?redirectUrl=%") ∧
    (deriveVars malformedEnv).baseUrl = .str (lit "http://localhost/") ∧
    handler malformedEnv = .error .URIError ∧
    ¬ ∃ page, handler malformedEnv = .ok page := by
  have he : handler malformedEnv = .error .URIError := by decide
  refine ⟨rfl, by decide, he, ?_⟩
  rintro ⟨page, hp⟩
  rw [he] at hp
  cases hp

/-- C6 (amended): on every page URL whose `redirectUri` is absent or empty, or
whose nested `redirectUrl` is absent or accepted by `decodeURIComponent`, the
handler completes having set the `href` of the new-account link to the derived
base URL followed by `/showRegister.do` and that of the forgot-password link to
the base URL followed by `/showResetPassword.do`. -/
theorem link_targets (env : Env) (h : WellEncoded env) :
    ∃ d page, derive env = .ok d ∧ handler env = .ok page ∧
      page.newAccountHref = d.baseUrl ++ lit "/showRegister.do" ∧
      page.forgotPasswordHref = d.baseUrl ++ lit "/showResetPassword.do" := by
  obtain ⟨d, hd⟩ := derive_of_wellEncoded env h
  exact ⟨d, _, hd, handler_of_derive env d hd, rfl, rfl⟩

theorem link_targets_witness :
    (∃ page, handler bareEnv = .ok page ∧
      page.newAccountHref = lit "http://eupathdb.org/eupathdb/showRegister.do" ∧
      page.forgotPasswordHref = lit "http://eupathdb.org/eupathdb/showResetPassword.do") ∧
    (∃ page, handler plasmoEnv = .ok page ∧
      page.newAccountHref = lit "http://www.plasmodb.org/plasmo/showRegister.do" ∧
      page.forgotPasswordHref = lit "http://www.plasmodb.org/plasmo/showResetPassword.do") := by
  constructor
  · obtain ⟨d, page, hd, hp, h1, h2⟩ := link_targets bareEnv (Or.inl (Or.inl rfl))
    have e : d = ⟨lit "http://eupathdb.org/eupathdb", lit "http://eupathdb.org/eupathdb",
        .str (lit "eupathdb")⟩ :=
      Except.ok.inj (hd.symm.trans (by decide))
    subst e
    exact ⟨page, hp, h1.trans (by decide), h2.trans (by decide)⟩
  · obtain ⟨d, page, hd, hp, h1, h2⟩ := link_targets plasmoEnv
      (Or.inr (Or.inr ⟨lit "http%3A%2F%2Ffoo", lit "http://foo", rfl, by decide⟩))
    have e : d = ⟨lit "http://www.plasmodb.org/plasmo", lit "http://foo",
        .str (lit "plasmodb")⟩ :=
      Except.ok.inj (hd.symm.trans (by decide))
    subst e
    exact ⟨page, hp, h1.trans (by decide), h2.trans (by decide)⟩

/-- C7 (as stated) fails: on the page URL with `status=failed` whose nested
`redirectUrl` is the truncated escape `%E0%A4%A`, line 16 throws `URIError`
and the handler ends before line 37: nothing is written to the message
region. -/
theorem message_unwritten_counterexample :
    failedTruncatedEnv.status = .str (lit "failed") ∧
    (failedTruncatedEnv.parseURL failedTruncatedEnv.redirectUri).searchRedirectUrl =
      .str (lit "%E0%A4%A") ∧
    decodeURIComponent (lit "%E0%A4%A") = .error .URIError ∧
    handler failedTruncatedEnv = .error .URIError ∧
    ¬ ∃ page, handler failedTruncatedEnv = .ok page := by
  have he : handler failedTruncatedEnv = .error .URIError := by decide
  refine ⟨rfl, rfl, by decide, he, ?_⟩
  rintro ⟨page, hp⟩
  rw [he] at hp
  cases hp

/-- C7 (amended): on every page URL whose `redirectUri` is absent or empty, or
whose nested `redirectUrl` is absent or accepted by `decodeURIComponent`, and
whose `status` is a key of the message table, the handler completes and passes
the table entry to `html()` on the message region, whose content becomes that
entry: for `failed` the literal
`Invalid credentials.  Please try again.`, for `error` its literal, and for
`accessdenied` the text with the single anchor `<a href="B">B</a>` where `B`
is the derived base URL. -/
theorem status_message (env : Env) (h : WellEncoded env) (k : JSString)
    (hk : env.status = .str k) :
    ∃ d page, derive env = .ok d ∧ handler env = .ok page ∧
      (∀ m, (messages d.baseUrl).lookup k = some m →
        page.messageHtml = some (.prim (.str m)) ∧
        page.messageHtml.bind messageContent = some m) ∧
      (k = lit "failed" →
        page.messageHtml = some (.prim (.str (lit "Invalid credentials.  Please try again.")))) ∧
      (k = lit "error" →
        page.messageHtml = some (.prim (.str
          (lit "An error occurred during authentication.  Please feel free to try again.")))) ∧
      (k = lit "accessdenied" →
        page.messageHtml = some (.prim (.str
          (lit "Your session has expired.<br/>Please revisit " ++
            (lit "<a href=\"" ++ d.baseUrl ++ lit "\">" ++ d.baseUrl ++ lit "</a>") ++
            lit " and try again.")))) := by
  obtain ⟨d, hd⟩ := derive_of_wellEncoded env h
  obtain ⟨page, hp, hgen, hrest⟩ := message_of_derive env d hd k hk
  refine ⟨d, page, hd, hp, ?_, hrest⟩
  intro m hm
  refine ⟨hgen m hm, ?_⟩
  rw [hgen m hm]
  rfl

theorem status_message_witness :
    ∃ page, handler plasmoEnv = .ok page ∧
      page.messageHtml = some (.prim (.str
        (lit "Your session has expired.<br/>Please revisit " ++
          (lit "<a href=\"" ++ lit "http://www.plasmodb.org/plasmo" ++ lit "\">" ++
            lit "http://www.plasmodb.org/plasmo" ++ lit "</a>") ++
          lit " and try again."))) := by
  obtain ⟨d, page, hd, hp, _, _, _, h⟩ := status_message plasmoEnv
    (Or.inr (Or.inr ⟨lit "http%3A%2F%2Ffoo", lit "http://foo", rfl, by decide⟩))
    (lit "accessdenied") rfl
  have e : d = ⟨lit "http://www.plasmodb.org/plasmo", lit "http://foo",
      .str (lit "plasmodb")⟩ :=
    Except.ok.inj (hd.symm.trans (by decide))
  subst e
  exact ⟨page, hp, h rfl⟩

/-- C8 (as stated) fails twice: the host `myglobus.org` ends in `globus.org`,
and the derivation completes with project `myglobus`, not `eupathdb`; and with
host `www.globus.org` and nested `redirectUrl` `%`, line 16 throws `URIError`
and `project` is never assigned. -/
theorem globus_suffix_counterexample :
    (myglobusEnv.redirectUri = .str (lit "http://myglobus.org/app/showLogin.do") ∧
      (myglobusEnv.parseURL myglobusEnv.redirectUri).host = lit "my" ++ lit "globus.org" ∧
      ∃ d, derive myglobusEnv = .ok d ∧ d.project = .str (lit "myglobus") ∧
        d.project ≠ .str (lit "eupathdb")) ∧
    (globusPercentEnv.redirectUri = .str (lit "https://www.globus.org/app/login?redirectUrl=%") ∧
      (globusPercentEnv.parseURL globusPercentEnv.redirectUri).host =
        lit "www." ++ lit "globus.org" ∧
      derive globusPercentEnv = .error .URIError ∧
      (deriveVars globusPercentEnv).project = .undefined) :=
  ⟨⟨rfl, by decide,
      { baseUrl := lit "http://myglobus.org/app", cancelUrl := lit "http://myglobus.org/app",
        project := .str (lit "myglobus") },
      by decide, rfl, by decide⟩,
    ⟨rfl, by decide, by decide, by decide⟩⟩

/-- C8 (amended): for a non-empty `redirectUri` whose parsed host is
`globus.org` or `globusgenomics.org`, or ends in `.globus.org` or in
`.globusgenomics.org`, and whose nested `redirectUrl` is absent or accepted by
`decodeURIComponent`, the derivation completes with project `eupathdb`. -/
theorem globus_project (env : Env) (s : JSString) (hs : env.redirectUri = .str s)
    (hne : s ≠ lit "")
    (hh : (env.parseURL env.redirectUri).host = lit "globus.org" ∨
      (env.parseURL env.redirectUri).host = lit "globusgenomics.org" ∨
      (∃ p, (env.parseURL env.redirectUri).host = p ++ lit ".globus.org") ∨
      (∃ p, (env.parseURL env.redirectUri).host = p ++ lit ".globusgenomics.org"))
    (hq : NestedDecodes env) :
    ∃ d, derive env = .ok d ∧ d.project = .str (lit "eupathdb") := by
  obtain ⟨c, hc⟩ := derive_redirect_of_decodes env s hs hne hq
  refine ⟨_, hc, ?_⟩
  show normalizeProject (secondToLast (split (env.parseURL env.redirectUri).host (lit "."))) =
    .str (lit "eupathdb")
  rcases hh with h | h | ⟨p, h⟩ | ⟨p, h⟩
  · rw [h]; decide
  · rw [h]; decide
  · have e : lit ".globus.org" = 0x2E :: (lit "globus" ++ 0x2E :: lit "org") := by decide
    rw [h, e, secondToLast_split_suffix p _ _ (by decide) (by decide)]
    decide
  · have e : lit ".globusgenomics.org" = 0x2E :: (lit "globusgenomics" ++ 0x2E :: lit "org") := by
      decide
    rw [h, e, secondToLast_split_suffix p _ _ (by decide) (by decide)]
    decide

theorem globus_project_witness :
    (globusEnv.parseURL globusEnv.redirectUri).host = lit "www" ++ lit ".globus.org" ∧
    ∃ d, derive globusEnv = .ok d ∧ d.project = .str (lit "eupathdb") :=
  ⟨by decide,
    globus_project globusEnv _ rfl (by decide)
      (Or.inr (Or.inr (Or.inl ⟨lit "www", by decide⟩))) (Or.inl rfl)⟩

/-- C9 (as stated) fails twice: `status=constructor` is present and is none of
`failed`, `error`, `accessdenied`, yet the lookup in the message table yields
the inherited `Object.prototype.constructor`, and that value, not `undefined`,
is passed to `html()`; and with `status=bogus` and nested `redirectUrl` `%`,
line 16 throws `URIError` and `html()` is never called. -/
theorem inherited_status_counterexample :
    (constructorEnv.status = .str (lit "constructor") ∧
      lit "constructor" ≠ lit "failed" ∧ lit "constructor" ≠ lit "error" ∧
      lit "constructor" ≠ lit "accessdenied" ∧
      getProperty constructorEnv.objectPrototype (messages (lit "http://eupathdb.org/eupathdb"))
        (lit "constructor") = .builtin "Object" ∧
      ∃ page, handler constructorEnv = .ok page ∧ page.messageHtml = some (.builtin "Object") ∧
        page.messageHtml ≠ some (.prim .undefined)) ∧
    (bogusPercentEnv.status = .str (lit "bogus") ∧
      handler bogusPercentEnv = .error .URIError ∧
      ¬ ∃ page, handler bogusPercentEnv = .ok page) := by
  have he : handler bogusPercentEnv = .error .URIError := by decide
  refine ⟨⟨rfl, by decide, by decide, by decide, by decide,
      { newAccountHref := lit "http://eupathdb.org/eupathdb/showRegister.do"
        forgotPasswordHref := lit "http://eupathdb.org/eupathdb/showResetPassword.do"
        cancelLocation := lit "http://eupathdb.org/eupathdb"
        logoSelector := lit "#eupathdb-logo"
        messageHtml := some (.builtin "Object") },
      by decide, rfl, by decide⟩,
    ⟨rfl, he, ?_⟩⟩
  rintro ⟨page, hp⟩
  rw [he] at hp
  cases hp

/-- C9 (amended): on every page URL whose `redirectUri` is absent or empty, or
whose nested `redirectUrl` is absent or accepted by `decodeURIComponent`: when
`status` is a string that is none of `failed`, `error`, `accessdenied` and does
not name a property of `Object.prototype`, the lookup in the message table
yields `undefined`, `html()` is called on the message region with that
`undefined`, and the region is cleared to empty content; when `status` is
`undefined` or `null`, `html()` is not called. -/
theorem unrecognized_status (env : Env) (h : WellEncoded env) :
    (∀ k, env.status = .str k → k ≠ lit "failed" → k ≠ lit "error" →
      k ≠ lit "accessdenied" → env.objectPrototype k = none →
      ∃ d page, derive env = .ok d ∧ handler env = .ok page ∧
        getProperty env.objectPrototype (messages d.baseUrl) k = .prim .undefined ∧
        page.messageHtml = some (.prim .undefined) ∧
        page.messageHtml.bind messageContent = some (lit "")) ∧
    (env.status = .undefined ∨ env.status = .null →
      ∃ page, handler env = .ok page ∧ page.messageHtml = none) := by
  obtain ⟨d, hd⟩ := derive_of_wellEncoded env h
  have hu := unknown_key_of_derive env d hd
  constructor
  · intro k hk h1 h2 h3 hp
    obtain ⟨hg, page, hpage, hm⟩ := hu.1 k hk h1 h2 h3 hp
    refine ⟨d, page, hd, hpage, hg, hm, ?_⟩
    rw [hm]
    rfl
  · exact hu.2

theorem unrecognized_status_witness :
    (∃ page, handler bogusEnv = .ok page ∧ page.messageHtml = some (.prim .undefined) ∧
      page.messageHtml.bind messageContent = some (lit "")) ∧
    (∃ page, handler bareEnv = .ok page ∧ page.messageHtml = none) := by
  constructor
  · obtain ⟨d, page, _, hp, _, hm, hc⟩ :=
      (unrecognized_status bogusEnv (Or.inl (Or.inl rfl))).1 (lit "bogus") rfl
        (by decide) (by decide) (by decide) (by decide)
    exact ⟨page, hp, hm, hc⟩
  · exact (unrecognized_status bareEnv (Or.inl (Or.inl rfl))).2 (Or.inl rfl)

/-- C10 (as stated) fails: with the non-empty `redirectUri`
`http://localhost?redirectUrl=%`, whose nested `redirectUrl` value `%` is not
valid percent-encoding, the derivation throws `URIError` and the handler ends
without writing anything. -/
theorem malformed_redirect_counterexample :
    malformedEnv.redirectUri = .str (lit "http://localhost?redirectUrl=%") ∧
    lit "http://localhost?redirectUrl=%" ≠ lit "" ∧
    (malformedEnv.parseURL malformedEnv.redirectUri).searchRedirectUrl = .str (lit "%") ∧
    decodeURIComponent (lit "%") = .error .URIError ∧
    derive malformedEnv = .error .URIError ∧
    handler malformedEnv = .error .URIError :=
  ⟨rfl, by decide, rfl, by decide, by decide, by decide⟩

/-- C10 (amended): for a non-empty `redirectUri`, however malformed otherwise,
whose nested `redirectUrl` is absent, contains no `%`, or is accepted by
`decodeURIComponent`, the derivation completes without throwing, with
best-effort values: the base URL built from the parsed parts (ending in `/`
when the pathname is empty or `/`), and the project taken from the host
(`undefined` when the host contains no `.`). -/
theorem derivation_completes (env : Env) (s : JSString) (hs : env.redirectUri = .str s)
    (hne : s ≠ lit "")
    (hq : looseEqNullish (env.parseURL env.redirectUri).searchRedirectUrl = true ∨
      (∃ v, (env.parseURL env.redirectUri).searchRedirectUrl = .str v ∧ 0x25 ∉ v) ∨
      (∃ v c, (env.parseURL env.redirectUri).searchRedirectUrl = .str v ∧
        decodeURIComponent v = .ok c)) :
    ∃ d, derive env = .ok d ∧
      d.baseUrl = (env.parseURL env.redirectUri).protocol ++ lit "//" ++
        (env.parseURL env.redirectUri).host ++ lit "/" ++
        getWebappName (env.parseURL env.redirectUri).pathname ∧
      d.project = normalizeProject
        (secondToLast (split (env.parseURL env.redirectUri).host (lit "."))) ∧
      (0x2E ∉ (env.parseURL env.redirectUri).host → d.project = .undefined) ∧
      ((env.parseURL env.redirectUri).pathname = lit "" ∨
          (env.parseURL env.redirectUri).pathname = lit "/" →
        d.baseUrl = (env.parseURL env.redirectUri).protocol ++ lit "//" ++
          (env.parseURL env.redirectUri).host ++ lit "/") := by
  have hproj : 0x2E ∉ (env.parseURL env.redirectUri).host →
      normalizeProject (secondToLast (split (env.parseURL env.redirectUri).host (lit "."))) =
        .undefined := by
    intro h
    have hl : lit "." = [0x2E] := by decide
    rw [hl, split_unit, pieces_of_not_mem _ _ h]
    rfl
  have hbase : (env.parseURL env.redirectUri).pathname = lit "" ∨
      (env.parseURL env.redirectUri).pathname = lit "/" →
      redirectBaseUrl (env.parseURL env.redirectUri) =
        (env.parseURL env.redirectUri).protocol ++ lit "//" ++
          (env.parseURL env.redirectUri).host ++ lit "/" := by
    intro h
    have hw : getWebappName (env.parseURL env.redirectUri).pathname = [] := by
      rcases h with h | h <;> rw [h] <;> decide
    simp only [redirectBaseUrl, hw, List.append_nil]
  have hdec : looseEqNullish (env.parseURL env.redirectUri).searchRedirectUrl = true ∨
      ∃ v c, (env.parseURL env.redirectUri).searchRedirectUrl = .str v ∧
        decodeURIComponent v = .ok c := by
    rcases hq with h | ⟨v, hv, hp⟩ | h
    · exact Or.inl h
    · exact Or.inr ⟨v, v, hv, decode_of_no_percent v hp⟩
    · exact Or.inr h
  rcases hdec with h | ⟨v, c, hv, hc⟩
  · exact ⟨_, derive_redirect_absent env s hs hne h, rfl, rfl, hproj, hbase⟩
  · have hd := derive_redirect_present env s hs hne v hv
    rw [hc] at hd
    exact ⟨_, hd, rfl, rfl, hproj, hbase⟩

theorem derivation_completes_witness :
    ∃ d, derive localhostEnv = .ok d ∧ d.baseUrl = lit "http://localhost/" ∧
      d.project = .undefined := by
  obtain ⟨d, hd, _, _, hp, hb⟩ :=
    derivation_completes localhostEnv _ rfl (by decide) (Or.inl rfl)
  exact ⟨d, hd, by rw [hb (Or.inr rfl)]; decide, hp (by decide)⟩

end EuPathLogin
